import Mathlib

/-!
Shallow embedding of the AI-OCR extraction pipeline
(src/app/api/extract-text/route.ts and src/app/page.tsx).

JavaScript numbers are modelled by rationals (all constants involved are
exact decimals), strings by Lean strings whose length counts Unicode scalar
values, and the external vision-model service by a function from the attempt
number to the outcome of that call.
-/

/-- The character class of the JavaScript regexp \s (ECMAScript WhiteSpace and
LineTerminator code points), which drives split on whitespace and trim. -/
def jsWhitespace (c : Char) : Bool :=
  decide (c.toNat = 0x20 ∨ c.toNat = 0x09 ∨ c.toNat = 0x0a ∨ c.toNat = 0x0b ∨
    c.toNat = 0x0c ∨ c.toNat = 0x0d ∨ c.toNat = 0xa0 ∨ c.toNat = 0x1680 ∨
    (0x2000 ≤ c.toNat ∧ c.toNat ≤ 0x200a) ∨ c.toNat = 0x2028 ∨ c.toNat = 0x2029 ∨
    c.toNat = 0x202f ∨ c.toNat = 0x205f ∨ c.toNat = 0x3000 ∨ c.toNat = 0xfeff)

/-- text.trim on a character list: drop whitespace from both ends. -/
def jsTrimList (l : List Char) : List Char :=
  ((l.dropWhile jsWhitespace).reverse.dropWhile jsWhitespace).reverse

/-- String.prototype.trim. -/
def jsTrim (s : String) : String := String.mk (jsTrimList s.toList)

/-- Helper for splitting on whitespace runs; the accumulator holds the current
word reversed. -/
def wsSplitAux : List Char → List Char → List (List Char)
  | [], acc => if acc.isEmpty then [] else [acc.reverse]
  | c :: rest, acc =>
    if jsWhitespace c then
      if acc.isEmpty then wsSplitAux rest [] else acc.reverse :: wsSplitAux rest []
    else wsSplitAux rest (c :: acc)

/-- text.split on the regexp of one-or-more whitespace, with empty pieces
filtered out: the maximal runs of non-whitespace characters. -/
def jsWords (s : String) : List (List Char) := wsSplitAux s.toList []

/-- text.split with a newline separator. -/
def splitNl : List Char → List (List Char)
  | [] => [[]]
  | c :: rest =>
    if c = '\n' then [] :: splitNl rest
    else
      match splitNl rest with
      | [] => [[c]]
      | ln :: lns => (c :: ln) :: lns

/-- The lines of the text whose trimmed form is nonempty. -/
def jsLines (s : String) : List (List Char) :=
  (splitNl s.toList).filter (fun ln => !(jsTrimList ln).isEmpty)

/-- Case-insensitive match of one pattern character against a subject
character, as the regexp i flag canonicalises ASCII letters: the pattern
characters here are ASCII lowercase letters or punctuation. -/
def matchesCI (p c : Char) : Bool :=
  decide (p = c ∨ (97 ≤ p.toNat ∧ p.toNat ≤ 122 ∧ c.toNat + 32 = p.toNat))

/-- Case-insensitive prefix test. -/
def ciStartsWith : List Char → List Char → Bool
  | [], _ => true
  | _ :: _, [] => false
  | p :: ps, c :: cs => matchesCI p c && ciStartsWith ps cs

/-- The characters of the illegibility marker. -/
def illegPat : List Char := ['[', 'i', 'l', 'l', 'e', 'g', 'i', 'b', 'l', 'e', ']']

/-- Count of the non-overlapping, case-insensitive occurrences of the
illegibility marker, scanning left to right; after a match the scan resumes
past it (the second argument counts characters still to be skipped). -/
def countIllegAux : List Char → ℕ → ℕ
  | [], _ => 0
  | _ :: rest, skip + 1 => countIllegAux rest skip
  | c :: rest, 0 =>
    if ciStartsWith illegPat (c :: rest) then 1 + countIllegAux rest 10
    else countIllegAux rest 0

/-- Number of matches of the global case-insensitive illegibility regexp. -/
def illegCount (s : String) : ℕ := countIllegAux s.toList 0

/-- calculateConfidence from src/app/api/extract-text/route.ts. -/
def calculateConfidence (text : String) : ℚ :=
  if text = "" ∨ text = "No text detected" ∨ (jsTrim text).length = 0 then 0.05
  else
    let words := jsWords text
    let lines := jsLines text
    let c1 : ℚ := 0.25
    let c2 := if 40 < text.length then c1 + 0.15 else c1
    let c3 := if 200 < text.length then c2 + 0.1 else c2
    let c4 := if 2 < lines.length then c3 + 0.08 else c3
    let c5 := if 20 < words.length then c4 + 0.07 else c4
    let illegible := illegCount text
    let c6 :=
      if 0 < illegible then
        c5 - min 0.2 (((illegible : ℚ) / ((max words.length 1 : ℕ) : ℚ)) * 0.5)
      else c5
    min 0.98 (max 0.05 c6)

/-- The pre-penalty score: the base plus the four length, line and word
increments, written as a sum of indicators. -/
def rawScore (t : String) : ℚ :=
  0.25 + (if 40 < t.length then 0.15 else 0) + (if 200 < t.length then 0.1 else 0) +
    (if 2 < (jsLines t).length then 0.08 else 0) +
    (if 20 < (jsWords t).length then 0.07 else 0)

/-- The illegibility penalty as the source computes it, with the divisor
guarded by a maximum with one. -/
def illegPenalty (t : String) : ℚ :=
  min 0.2 (((illegCount t : ℚ) / ((max (jsWords t).length 1 : ℕ) : ℚ)) * 0.5)

/-- Reference body following the specification text for the confidence
estimator: base score, the four increments, then subtraction of the penalty
given as occurrence count divided by word count, halved and capped at 0.2. -/
def confidenceSpecBody (text : String) : ℚ :=
  let words := jsWords text
  let lines := jsLines text
  let c1 : ℚ := 0.25
  let c2 := if 40 < text.length then c1 + 0.15 else c1
  let c3 := if 200 < text.length then c2 + 0.1 else c2
  let c4 := if 2 < lines.length then c3 + 0.08 else c3
  let c5 := if 20 < words.length then c4 + 0.07 else c4
  let c6 := c5 - min 0.2 (((illegCount text : ℚ) / ((jsWords text).length : ℚ)) * 0.5)
  min 0.98 (max 0.05 c6)

/-- Reference definition following the claim: the floor value is returned
exactly when the text is empty or equals the sentinel. -/
def confidenceSpec (text : String) : ℚ :=
  if text = "" ∨ text = "No text detected" then 0.05 else confidenceSpecBody text

/-- The reference definition with its floor clause widened to cover
whitespace-only text, matching the source's trimmed-length test. -/
def confidenceSpecAmended (text : String) : ℚ :=
  if text = "" ∨ text = "No text detected" ∨ (jsTrim text).length = 0 then 0.05
  else confidenceSpecBody text

/-- String.prototype.includes: substring containment test. -/
def hasSubstr (pat : List Char) : List Char → Bool
  | [] => pat.isEmpty
  | c :: rest => pat.isPrefixOf (c :: rest) || hasSubstr pat rest

/-- The permanent-error test of the retry loop: the caught message contains
one of the two permanent-failure substrings. -/
def isPermanentMsg (m : String) : Bool :=
  hasSubstr ("does not exist").toList m.toList ||
    hasSubstr ("do not have access").toList m.toList

/-- Outcome of one call of the external vision model: a returned text or a
thrown error message. -/
inductive CallOutcome where
  | ok (text : String)
  | err (msg : String)
deriving DecidableEq

/-- A value returned or thrown by the retry loop; thrown values carry the
JavaScript lastError, which is null when no attempt ever ran. -/
inductive CallResult where
  | ok (text : String)
  | thrown (error : Option String)
deriving DecidableEq

/-- Observable outcome of callModelWithRetries for one model: how many
attempts ran, which backoff waits were performed, and the value returned or
thrown. -/
structure RetryResult where
  attempts : ℕ
  waits : List ℕ
  result : CallResult
deriving DecidableEq

/-- The retry loop of callModelWithRetries: the remaining fuel starts at
maxAttempts, attempt numbers at one; a transient error waits 300ms times the
attempt number and continues, a permanent error breaks at once, exhaustion
throws the last error. -/
def retryGo (behavior : ℕ → CallOutcome) :
    ℕ → ℕ → Option String → List ℕ → ℕ → RetryResult
  | 0, _, lastError, waits, acc => ⟨acc, waits, .thrown lastError⟩
  | fuel + 1, attempt, _, waits, acc =>
    match behavior attempt with
    | .ok t => ⟨acc + 1, waits, .ok t⟩
    | .err m =>
      if isPermanentMsg m then ⟨acc + 1, waits, .thrown (some m)⟩
      else retryGo behavior fuel (attempt + 1) (some m) (waits ++ [300 * attempt]) (acc + 1)

/-- callModelWithRetries from src/app/api/extract-text/route.ts, abstracted
over the behaviour of the external model per attempt number. -/
def callModelWithRetries (behavior : ℕ → CallOutcome) (maxAttempts : ℕ := 3) : RetryResult :=
  retryGo behavior maxAttempts 1 none [] 0

/-- JavaScript truthiness choice `primaryErr || fallbackErr` over thrown error
values, where an Error object is truthy and null is falsy. -/
def jsOr : Option String → Option String → Option String
  | some m, _ => some m
  | none, e => e

/-- Observable outcome of the primary-then-fallback orchestration in POST. -/
structure InvokeResult where
  primaryAttempts : ℕ
  primaryWaits : List ℕ
  fallbackTried : Bool
  fallbackAttempts : ℕ
  outcome : CallResult
deriving DecidableEq

/-- The try/catch orchestration of POST over the two models: the fallback
runs only when the primary loop threw, and when both throw the surfaced
error is the primary's unless it is falsy. -/
def invokeModels (pB fB : ℕ → CallOutcome) : InvokeResult :=
  let p := callModelWithRetries pB 3
  match p.result with
  | .ok t => ⟨p.attempts, p.waits, false, 0, .ok t⟩
  | .thrown pe =>
    let f := callModelWithRetries fB 3
    match f.result with
    | .ok t => ⟨p.attempts, p.waits, true, f.attempts, .ok t⟩
    | .thrown fe => ⟨p.attempts, p.waits, true, f.attempts, .thrown (jsOr pe fe)⟩

/-- The image form field: name, declared MIME type and byte size. -/
structure FormImage where
  name : String
  type : String
  size : ℕ
deriving DecidableEq

/-- The JSON responses the route can produce. -/
inductive ApiResponse where
  | success (text : String) (confidence : ℚ)
  | badRequest (error : String)
  | serverError (error : String) (details : String)
deriving DecidableEq

/-- The MIME type embedded into the data URL: the declared type, with the
empty string defaulting to image/png. -/
def effectiveMime (img : FormImage) : String :=
  if img.type = "" then "image/png" else img.type

/-- The POST handler of src/app/api/extract-text/route.ts: presence check on
the image field, model orchestration, empty-text check, then the success
body built from the trimmed text and the confidence of the untrimmed text. -/
def POST (imageField : Option FormImage) (pB fB : ℕ → CallOutcome) : ApiResponse :=
  match imageField with
  | none => .badRequest ("No image provided")
  | some _ =>
    match (invokeModels pB fB).outcome with
    | .ok t =>
      if t = "" then
        .serverError ("Failed to extract text from image") ("Groq returned empty response")
      else .success (jsTrim t) (calculateConfidence t)
    | .thrown e =>
      .serverError ("Failed to extract text from image")
        (match e with | some m => m | none => "Unknown error")

/-- Math.round for the nonnegative quantities of the resize computation. -/
def jsRound (q : ℚ) : ℤ := ⌊q + 1/2⌋

/-- The resize factor of preprocessToPngDataUrl: Math.min(1, 2000/max(w,h)),
where division of 2000 by zero yields Infinity and so a factor of one. -/
def preprocessScale (w h : ℕ) : ℚ :=
  if max w h = 0 then 1 else min 1 ((2000 : ℚ) / ((max w h : ℕ) : ℚ))

/-- The output canvas dimensions of preprocessToPngDataUrl. -/
def preprocessDims (w h : ℕ) : ℕ × ℕ :=
  ((jsRound ((w : ℚ) * preprocessScale w h)).toNat,
    (jsRound ((h : ℚ) * preprocessScale w h)).toNat)

/-- The luminance-weighted grayscale of the specification. -/
def luminance (r g b : ℚ) : ℚ := 0.299 * r + 0.587 * g + 0.114 * b

/-- The contrast map of the specification, clamped to the byte range. -/
def contrastClamp (v : ℚ) : ℚ := max 0 (min 255 ((v - 128) * 1.15 + 128))

/-- The per-pixel transform of preprocessToPngDataUrl: grayscale all three
channels, then apply the contrast multiplier and clamp each channel. -/
def transformPixel (r g b : ℚ) : ℚ × ℚ × ℚ :=
  let gray := 0.299 * r + 0.587 * g + 0.114 * b
  let r1 := (gray - 128) * 1.15 + 128
  let g1 := (gray - 128) * 1.15 + 128
  let b1 := (gray - 128) * 1.15 + 128
  (max 0 (min 255 r1), max 0 (min 255 g1), max 0 (min 255 b1))

/-! ### Helper lemmas about the confidence estimator -/

lemma conf_floor (t : String)
    (h : t = "" ∨ t = "No text detected" ∨ (jsTrim t).length = 0) :
    calculateConfidence t = 0.05 := by
  unfold calculateConfidence
  rw [if_pos h]

lemma conf_spec_form (t : String)
    (h : ¬(t = "" ∨ t = "No text detected" ∨ (jsTrim t).length = 0)) :
    calculateConfidence t = min 0.98 (max 0.05 (rawScore t - illegPenalty t)) := by
  rw [calculateConfidence.eq_def, if_neg h]
  by_cases hi : 0 < illegCount t
  · simp only [rawScore, illegPenalty, if_pos hi]
    split_ifs <;> first | rfl | ring_nf
  · have h0 : illegCount t = 0 := by omega
    simp only [rawScore, illegPenalty, if_neg hi, h0, Nat.cast_zero, zero_div, zero_mul]
    rw [min_eq_right (by norm_num : (0:ℚ) ≤ 0.2)]
    split_ifs <;> first | rfl | ring_nf

lemma specBody_form (t : String) :
    confidenceSpecBody t =
      min 0.98 (max 0.05 (rawScore t -
        min 0.2 (((illegCount t : ℚ) / ((jsWords t).length : ℚ)) * 0.5))) := by
  simp only [confidenceSpecBody, rawScore]
  split_ifs <;> first | rfl | ring_nf

lemma exists_nonws_of_countIlleg :
    ∀ (l : List Char) (k : ℕ), 0 < countIllegAux l k →
      ∃ c ∈ l, jsWhitespace c = false := by
  intro l
  induction l with
  | nil => intro k h; simp [countIllegAux] at h
  | cons c rest ih =>
    intro k h
    match k with
    | skip + 1 =>
      obtain ⟨d, hd, hw⟩ := ih skip (by simpa [countIllegAux] using h)
      exact ⟨d, List.mem_cons_of_mem _ hd, hw⟩
    | 0 =>
      by_cases hp : ciStartsWith illegPat (c :: rest) = true
      · have hm : matchesCI ('[') c = true := by
          rw [illegPat, ciStartsWith, Bool.and_eq_true] at hp
          exact hp.1
        have hc : c = '[' := by
          rw [matchesCI, decide_eq_true_eq] at hm
          rcases hm with h1 | h2
          · exact h1.symm
          · have hval : ('[').toNat = 91 := rfl
            omega
        exact ⟨c, List.mem_cons_self c rest, by rw [hc]; decide⟩
      · have hp' : ciStartsWith illegPat (c :: rest) = false := by
          simpa using hp
        obtain ⟨d, hd, hw⟩ := ih 0 (by simpa [countIllegAux, hp'] using h)
        exact ⟨d, List.mem_cons_of_mem _ hd, hw⟩

lemma wsSplitAux_ne_nil_of_acc :
    ∀ (l acc : List Char), acc ≠ [] → wsSplitAux l acc ≠ [] := by
  intro l
  induction l with
  | nil =>
    intro acc h
    have hacc : acc.isEmpty = false := by simpa [List.isEmpty_iff] using h
    simp [wsSplitAux, hacc]
  | cons c rest ih =>
    intro acc h
    have hacc : acc.isEmpty = false := by simpa [List.isEmpty_iff] using h
    by_cases h1 : jsWhitespace c = true
    · have heq : wsSplitAux (c :: rest) acc = acc.reverse :: wsSplitAux rest [] := by
        simp [wsSplitAux, h1, hacc]
      rw [heq]
      simp
    · have heq : wsSplitAux (c :: rest) acc = wsSplitAux rest (c :: acc) := by
        simp [wsSplitAux, h1]
      rw [heq]
      exact ih (c :: acc) (List.cons_ne_nil c acc)

lemma wsSplitAux_ne_nil :
    ∀ (l : List Char), (∃ c ∈ l, jsWhitespace c = false) →
      wsSplitAux l [] ≠ [] := by
  intro l
  induction l with
  | nil => rintro ⟨c, hc, _⟩; exact absurd hc (List.not_mem_nil c)
  | cons c rest ih =>
    rintro ⟨d, hd, hw⟩
    by_cases h1 : jsWhitespace c = true
    · have hdr : d ∈ rest := by
        rcases List.mem_cons.mp hd with rfl | h
        · rw [hw] at h1; exact absurd h1 (by simp)
        · exact h
      have heq : wsSplitAux (c :: rest) [] = wsSplitAux rest [] := by
        simp [wsSplitAux, h1]
      rw [heq]
      exact ih ⟨d, hdr, hw⟩
    · have heq : wsSplitAux (c :: rest) [] = wsSplitAux rest [c] := by
        simp [wsSplitAux, h1]
      rw [heq]
      exact wsSplitAux_ne_nil_of_acc rest [c] (List.cons_ne_nil c [])

lemma words_pos_of_illeg {t : String} (h : 0 < illegCount t) :
    1 ≤ (jsWords t).length := by
  obtain ⟨c, hc, hw⟩ := exists_nonws_of_countIlleg t.toList 0 h
  exact List.length_pos.mpr (wsSplitAux_ne_nil t.toList ⟨c, hc, hw⟩)

lemma jsTrimList_ne_nil {l : List Char} {c : Char}
    (hc : c ∈ l) (hw : jsWhitespace c = false) : jsTrimList l ≠ [] := by
  intro h
  rw [jsTrimList, List.reverse_eq_nil_iff, List.dropWhile_eq_nil_iff] at h
  have hmem : c ∈ l.dropWhile jsWhitespace := by
    have happ := List.takeWhile_append_dropWhile (p := jsWhitespace) (l := l)
    rcases List.mem_append.mp (by rw [happ]; exact hc) with h1 | h2
    · have := List.mem_takeWhile_imp h1
      rw [hw] at this
      exact absurd this (by simp)
    · exact h2
  have := h c (List.mem_reverse.mpr hmem)
  rw [hw] at this
  exact absurd this (by simp)

lemma not_floor_of_illeg {t : String} (h : 0 < illegCount t) :
    ¬(t = "" ∨ t = "No text detected" ∨ (jsTrim t).length = 0) := by
  obtain ⟨c, hc, hw⟩ := exists_nonws_of_countIlleg t.toList 0 h
  rintro (rfl | rfl | hlen)
  · rw [show ("" : String).toList = [] from rfl] at hc
    exact absurd hc (List.not_mem_nil c)
  · exact absurd h (by decide)
  · have hnil : jsTrimList t.toList = [] := by
      have hr : (jsTrim t).length = (jsTrimList t.toList).length := rfl
      rw [hr] at hlen
      exact List.length_eq_zero.mp hlen
    exact jsTrimList_ne_nil hc hw hnil

lemma penalty_eq (t : String) :
    illegPenalty t = min 0.2 (((illegCount t : ℚ) / ((jsWords t).length : ℚ)) * 0.5) := by
  by_cases hi : 0 < illegCount t
  · rw [illegPenalty, Nat.max_eq_left (words_pos_of_illeg hi)]
  · have h0 : illegCount t = 0 := by omega
    rw [illegPenalty, h0]
    simp

lemma illegPenalty_nonneg (t : String) : 0 ≤ illegPenalty t := by
  rw [illegPenalty]
  exact le_min (by norm_num) (by positivity)

lemma illegPenalty_eq_zero {t : String} (h : illegCount t = 0) : illegPenalty t = 0 := by
  rw [illegPenalty, h]
  norm_num

lemma conf_lower (t : String) : 0.05 ≤ calculateConfidence t := by
  by_cases h : t = "" ∨ t = "No text detected" ∨ (jsTrim t).length = 0
  · exact le_of_eq (conf_floor t h).symm
  · rw [conf_spec_form t h]
    exact le_min (by norm_num) (le_max_left _ _)

lemma rawScore_le (t : String) : rawScore t ≤ 0.65 := by
  rw [rawScore]
  split_ifs <;> norm_num

lemma conf_le_065 (t : String) : calculateConfidence t ≤ 0.65 := by
  by_cases h : t = "" ∨ t = "No text detected" ∨ (jsTrim t).length = 0
  · rw [conf_floor t h]; norm_num
  · rw [conf_spec_form t h]
    have h1 : rawScore t - illegPenalty t ≤ 0.65 :=
      le_trans (sub_le_self _ (illegPenalty_nonneg t)) (rawScore_le t)
    exact le_trans (min_le_right _ _) (max_le (by norm_num) h1)

lemma conf_upper (t : String) : calculateConfidence t ≤ 0.98 := by
  by_cases h : t = "" ∨ t = "No text detected" ∨ (jsTrim t).length = 0
  · rw [conf_floor t h]; norm_num
  · rw [conf_spec_form t h]
    exact min_le_left _ _

lemma ind_mono {a b c : ℕ} (h : a ≤ b) (v : ℚ) (hv : 0 ≤ v) :
    (if c < a then v else 0) ≤ if c < b then v else 0 := by
  split_ifs with h1 h2
  · exact le_refl v
  · exact absurd (lt_of_lt_of_le h1 h) h2
  · exact hv
  · exact le_refl 0

lemma rawScore_mono {t1 t2 : String} (hl : t1.length ≤ t2.length)
    (hn : (jsLines t1).length ≤ (jsLines t2).length)
    (hw : (jsWords t1).length ≤ (jsWords t2).length) :
    rawScore t1 ≤ rawScore t2 := by
  rw [rawScore, rawScore]
  exact add_le_add (add_le_add (add_le_add (add_le_add (le_refl 0.25)
    (ind_mono hl 0.15 (by norm_num))) (ind_mono hl 0.1 (by norm_num)))
    (ind_mono hn 0.08 (by norm_num))) (ind_mono hw 0.07 (by norm_num))

/-! ### Helper lemmas about the retry loop and the route handler -/

lemma retryGo_zero (B : ℕ → CallOutcome) (att : ℕ) (lastErr : Option String)
    (w : List ℕ) (acc : ℕ) : retryGo B 0 att lastErr w acc = ⟨acc, w, .thrown lastErr⟩ := rfl

lemma retryGo_succ (B : ℕ → CallOutcome) (fuel att : ℕ) (lastErr : Option String)
    (w : List ℕ) (acc : ℕ) :
    retryGo B (fuel + 1) att lastErr w acc =
      match B att with
      | .ok t => ⟨acc + 1, w, .ok t⟩
      | .err m =>
        if isPermanentMsg m then ⟨acc + 1, w, .thrown (some m)⟩
        else retryGo B fuel (att + 1) (some m) (w ++ [300 * att]) (acc + 1) := rfl

lemma retryGo_ok (B : ℕ → CallOutcome) (fuel att : ℕ) (lastErr : Option String)
    (w : List ℕ) (acc : ℕ) (t : String) (h : B att = .ok t) :
    retryGo B (fuel + 1) att lastErr w acc = ⟨acc + 1, w, .ok t⟩ := by
  rw [retryGo_succ, h]

lemma retryGo_perm (B : ℕ → CallOutcome) (fuel att : ℕ) (lastErr : Option String)
    (w : List ℕ) (acc : ℕ) (m : String) (h : B att = .err m)
    (hp : isPermanentMsg m = true) :
    retryGo B (fuel + 1) att lastErr w acc = ⟨acc + 1, w, .thrown (some m)⟩ := by
  rw [retryGo_succ, h]
  simp [hp]

lemma retryGo_trans (B : ℕ → CallOutcome) (fuel att : ℕ) (lastErr : Option String)
    (w : List ℕ) (acc : ℕ) (m : String) (h : B att = .err m)
    (hp : isPermanentMsg m = false) :
    retryGo B (fuel + 1) att lastErr w acc =
      retryGo B fuel (att + 1) (some m) (w ++ [300 * att]) (acc + 1) := by
  rw [retryGo_succ, h]
  simp [hp]

lemma retries_three_transient (B : ℕ → CallOutcome) (m1 m2 m3 : String)
    (h1 : B 1 = .err m1) (h2 : B 2 = .err m2) (h3 : B 3 = .err m3)
    (t1 : isPermanentMsg m1 = false) (t2 : isPermanentMsg m2 = false)
    (t3 : isPermanentMsg m3 = false) :
    callModelWithRetries B 3 = ⟨3, [300, 600, 900], .thrown (some m3)⟩ := by
  have s1 : retryGo B 3 1 none [] 0 = retryGo B 2 2 (some m1) [300] 1 := by
    have hs := retryGo_trans B 2 1 none [] 0 m1 h1 t1
    simpa using hs
  have s2 : retryGo B 2 2 (some m1) [300] 1 = retryGo B 1 3 (some m2) [300, 600] 2 := by
    have hs := retryGo_trans B 1 2 (some m1) [300] 1 m2 h2 t2
    simpa using hs
  have s3 : retryGo B 1 3 (some m2) [300, 600] 2 =
      retryGo B 0 4 (some m3) [300, 600, 900] 3 := by
    have hs := retryGo_trans B 0 3 (some m2) [300, 600] 2 m3 h3 t3
    simpa using hs
  rw [callModelWithRetries, s1, s2, s3, retryGo_zero]

lemma retries_permanent_first (B : ℕ → CallOutcome) (m : String)
    (h1 : B 1 = .err m) (hp : isPermanentMsg m = true) :
    callModelWithRetries B 3 = ⟨1, [], .thrown (some m)⟩ := by
  have hs : retryGo B 3 1 none [] 0 = ⟨1, [], .thrown (some m)⟩ := by
    have := retryGo_perm B 2 1 none [] 0 m h1 hp
    simpa using this
  rw [callModelWithRetries, hs]

lemma retries_ok_first (B : ℕ → CallOutcome) (t : String) (h1 : B 1 = .ok t) :
    callModelWithRetries B 3 = ⟨1, [], .ok t⟩ := by
  have hs : retryGo B 3 1 none [] 0 = ⟨1, [], .ok t⟩ := by
    have := retryGo_ok B 2 1 none [] 0 t h1
    simpa using this
  rw [callModelWithRetries, hs]

lemma retryGo_attempts_lt (B : ℕ → CallOutcome) :
    ∀ (fuel att : ℕ) (lastErr : Option String) (w : List ℕ) (acc : ℕ),
      acc < (retryGo B (fuel + 1) att lastErr w acc).attempts := by
  intro fuel
  induction fuel with
  | zero =>
    intro att lastErr w acc
    rw [retryGo_succ]
    cases hB : B att with
    | ok t => simp
    | err m =>
      by_cases hp : isPermanentMsg m = true
      · simp [hp]
      · have hp' : isPermanentMsg m = false := by simpa using hp
        simp [hp', retryGo_zero]
  | succ fuel ih =>
    intro att lastErr w acc
    rw [retryGo_succ]
    cases hB : B att with
    | ok t => simp
    | err m =>
      by_cases hp : isPermanentMsg m = true
      · simp [hp]
      · have hp' : isPermanentMsg m = false := by simpa using hp
        simp only [hp', Bool.false_eq_true, if_false]
        exact lt_trans (Nat.lt_succ_self acc)
          (ih (att + 1) (some m) (w ++ [300 * att]) (acc + 1))

lemma one_le_attempts (B : ℕ → CallOutcome) : 1 ≤ (callModelWithRetries B 3).attempts := by
  have h : 0 < (retryGo B 3 1 none [] 0).attempts := retryGo_attempts_lt B 2 1 none [] 0
  rw [callModelWithRetries]
  exact h

lemma invoke_primary_ok (pB fB : ℕ → CallOutcome) (a : ℕ) (w : List ℕ) (t : String)
    (hp : callModelWithRetries pB 3 = ⟨a, w, .ok t⟩) :
    invokeModels pB fB = ⟨a, w, false, 0, .ok t⟩ := by
  simp only [invokeModels, hp]

lemma invoke_fallback_ok (pB fB : ℕ → CallOutcome) (a1 : ℕ) (w1 : List ℕ)
    (e1 : Option String) (a2 : ℕ) (w2 : List ℕ) (t : String)
    (hp : callModelWithRetries pB 3 = ⟨a1, w1, .thrown e1⟩)
    (hf : callModelWithRetries fB 3 = ⟨a2, w2, .ok t⟩) :
    invokeModels pB fB = ⟨a1, w1, true, a2, .ok t⟩ := by
  simp only [invokeModels, hp, hf]

lemma invoke_both_thrown (pB fB : ℕ → CallOutcome) (a1 : ℕ) (w1 : List ℕ)
    (e1 : Option String) (a2 : ℕ) (w2 : List ℕ) (e2 : Option String)
    (hp : callModelWithRetries pB 3 = ⟨a1, w1, .thrown e1⟩)
    (hf : callModelWithRetries fB 3 = ⟨a2, w2, .thrown e2⟩) :
    invokeModels pB fB = ⟨a1, w1, true, a2, .thrown (jsOr e1 e2)⟩ := by
  simp only [invokeModels, hp, hf]

lemma POST_ok (img : FormImage) (pB fB : ℕ → CallOutcome) (raw : String)
    (h : (invokeModels pB fB).outcome = CallResult.ok raw) (hne : raw ≠ "") :
    POST (some img) pB fB = .success (jsTrim raw) (calculateConfidence raw) := by
  simp only [POST, h]
  rw [if_neg hne]

lemma POST_empty (img : FormImage) (pB fB : ℕ → CallOutcome)
    (h : (invokeModels pB fB).outcome = CallResult.ok ("")) :
    POST (some img) pB fB =
      .serverError ("Failed to extract text from image") ("Groq returned empty response") := by
  simp only [POST, h]
  rw [if_pos trivial]

lemma POST_thrown (img : FormImage) (pB fB : ℕ → CallOutcome) (e : Option String)
    (h : (invokeModels pB fB).outcome = CallResult.thrown e) :
    POST (some img) pB fB =
      .serverError ("Failed to extract text from image")
        (match e with | some m => m | none => "Unknown error") := by
  simp only [POST, h]
  rcases e with _ | m <;> rfl

lemma jsRound_natCast (n : ℕ) : jsRound ((n : ℕ) : ℚ) = (n : ℤ) := by
  rw [jsRound, Int.floor_eq_iff]
  constructor
  · push_cast
    linarith
  · push_cast
    linarith

/-! ### Claim theorems -/

/-- Claim C1 (counterexample): the estimator does not equal the reference
definition on every string: on the one-space string the source returns the
floor 0.05 through its trimmed-length test, while the reference definition of
the claim, whose floor covers only the empty string and the sentinel, returns
the base 0.25. -/
theorem c1_counterexample :
    calculateConfidence (" ") = 0.05 ∧ confidenceSpec (" ") = 0.25 ∧
      calculateConfidence (" ") ≠ confidenceSpec (" ") := by
  have h1 : calculateConfidence (" ") = 0.05 := conf_floor (" ") (by decide)
  have h2 : confidenceSpec (" ") = 0.25 := by
    rw [confidenceSpec, if_neg (by decide), specBody_form]
    have s0 : illegCount (" ") = 0 := by decide
    have s1 : (" ").length = 1 := by decide
    have s2 : (jsWords (" ")).length = 0 := by decide
    have s3 : (jsLines (" ")).length = 0 := by decide
    rw [rawScore, s0, s1, s2, s3]
    norm_num
  refine ⟨h1, h2, ?_⟩
  rw [h1, h2]
  norm_num

/-- Claim C1 (amended): the confidence estimator equals the reference
definition once the floor clause is widened to cover whitespace-only text as
well: 0.05 for empty, whitespace-only, or sentinel text, otherwise base 0.25
plus the increments 0.15, 0.10, 0.08, 0.07 in this order, minus the
illegibility penalty, clamped to the interval from 0.05 to 0.98. -/
theorem c1_confidence_matches_amended_spec (t : String) :
    calculateConfidence t = confidenceSpecAmended t := by
  by_cases h : t = "" ∨ t = "No text detected" ∨ (jsTrim t).length = 0
  · rw [conf_floor t h, confidenceSpecAmended, if_pos h]
  · rw [conf_spec_form t h, confidenceSpecAmended, if_neg h, specBody_form, penalty_eq]

/-- Claim C5 (counterexample): monotonicity in length, line count and word
count with no illegibility markers fails when the larger text is the sentinel:
the sentinel dominates the two-character text in all three statistics yet its
confidence 0.05 is below 0.25. -/
theorem c5_counterexample :
    illegCount ("hi") = 0 ∧ illegCount ("No text detected") = 0 ∧
    ("hi").length ≤ ("No text detected").length ∧
    (jsLines ("hi")).length ≤ (jsLines ("No text detected")).length ∧
    (jsWords ("hi")).length ≤ (jsWords ("No text detected")).length ∧
    calculateConfidence ("No text detected") < calculateConfidence ("hi") := by
  refine ⟨by decide, by decide, by decide, by decide, by decide, ?_⟩
  have h1 : calculateConfidence ("No text detected") = 0.05 := conf_floor _ (by decide)
  have h2 : calculateConfidence ("hi") = 0.25 := by
    rw [conf_spec_form _ (by decide),
      illegPenalty_eq_zero (show illegCount ("hi") = 0 by decide)]
    have s1 : ("hi").length = 2 := by decide
    have s2 : (jsWords ("hi")).length = 1 := by decide
    have s3 : (jsLines ("hi")).length = 1 := by decide
    rw [rawScore, s1, s2, s3]
    norm_num
  rw [h1, h2]
  norm_num

/-- Claim C5 (amended): for marker-free texts the confidence is monotone in
character length, non-blank line count and word count, provided the larger
text is not empty, whitespace-only, or the sentinel; and every confidence lies
between 0.05 and 0.98. -/
theorem c5_monotonicity_amended (t1 t2 : String)
    (hi1 : illegCount t1 = 0) (hi2 : illegCount t2 = 0)
    (hlen : t1.length ≤ t2.length)
    (hlines : (jsLines t1).length ≤ (jsLines t2).length)
    (hwords : (jsWords t1).length ≤ (jsWords t2).length)
    (hfloor : ¬(t2 = "" ∨ t2 = "No text detected" ∨ (jsTrim t2).length = 0)) :
    calculateConfidence t1 ≤ calculateConfidence t2 ∧
    (∀ t : String, 0.05 ≤ calculateConfidence t ∧ calculateConfidence t ≤ 0.98) := by
  refine ⟨?_, fun t => ⟨conf_lower t, conf_upper t⟩⟩
  by_cases h1 : t1 = "" ∨ t1 = "No text detected" ∨ (jsTrim t1).length = 0
  · rw [conf_floor t1 h1]
    exact conf_lower t2
  · rw [conf_spec_form t1 h1, conf_spec_form t2 hfloor,
      illegPenalty_eq_zero hi1, illegPenalty_eq_zero hi2]
    have hmono := rawScore_mono hlen hlines hwords
    exact min_le_min (le_refl _) (max_le_max (le_refl _) (by linarith))

/-- Claim C5 (witness): the amended monotonicity applied to two concrete
marker-free texts. -/
theorem c5_witness :
    calculateConfidence ("a") ≤ calculateConfidence ("hello world") ∧
    (0.05 : ℚ) ≤ calculateConfidence ("a") := by
  have h := c5_monotonicity_amended ("a") ("hello world") (by decide) (by decide)
    (by decide) (by decide) (by decide) (by decide)
  exact ⟨h.1, (h.2 ("a")).1⟩

/-- Claim C6 (counterexample): with only the word count held fixed, more
marker occurrences can raise the confidence, because the added marker text can
push the character length over the 40-character bonus threshold: both texts
have two words, the second has two markers against one, yet its confidence
0.20 exceeds 0.05. -/
theorem c6_counterexample :
    (jsWords ("aa [illegible]")).length =
      (jsWords ("[illegible]" ++ String.mk (List.replicate 20 (' ')) ++ "[illegible]")).length ∧
    illegCount ("aa [illegible]") = 1 ∧
    illegCount ("[illegible]" ++ String.mk (List.replicate 20 (' ')) ++ "[illegible]") = 2 ∧
    calculateConfidence ("aa [illegible]") <
      calculateConfidence ("[illegible]" ++ String.mk (List.replicate 20 (' ')) ++ "[illegible]") := by
  refine ⟨by decide, by decide, by decide, ?_⟩
  have hA : calculateConfidence ("aa [illegible]") = 0.05 := by
    rw [conf_spec_form _ (by decide), penalty_eq]
    have s0 : illegCount ("aa [illegible]") = 1 := by decide
    have s1 : ("aa [illegible]").length = 14 := by decide
    have s2 : (jsWords ("aa [illegible]")).length = 2 := by decide
    have s3 : (jsLines ("aa [illegible]")).length = 1 := by decide
    rw [rawScore, s0, s1, s2, s3]
    norm_num
  have hB : calculateConfidence
      ("[illegible]" ++ String.mk (List.replicate 20 (' ')) ++ "[illegible]") = 0.2 := by
    rw [conf_spec_form _ (by decide), penalty_eq]
    have s0 : illegCount
        ("[illegible]" ++ String.mk (List.replicate 20 (' ')) ++ "[illegible]") = 2 := by decide
    have s1 : ("[illegible]" ++ String.mk (List.replicate 20 (' ')) ++ "[illegible]").length = 42 := by
      decide
    have s2 : (jsWords
        ("[illegible]" ++ String.mk (List.replicate 20 (' ')) ++ "[illegible]")).length = 2 := by
      decide
    have s3 : (jsLines
        ("[illegible]" ++ String.mk (List.replicate 20 (' ')) ++ "[illegible]")).length = 1 := by
      decide
    rw [rawScore, s0, s1, s2, s3]
    norm_num
  rw [hA, hB]
  norm_num

/-- Claim C6 (amended): with word count, character length and non-blank line
count all held fixed, more case-insensitive marker occurrences never increase
the confidence; the confidence never falls below 0.05; and on any text with at
least one occurrence the subtracted penalty is the occurrence count divided by
the word count, halved and capped at 0.20. -/
theorem c6_illegible_amended (t1 t2 : String)
    (hw : (jsWords t1).length = (jsWords t2).length)
    (hl : t1.length = t2.length)
    (hn : (jsLines t1).length = (jsLines t2).length)
    (h1 : 0 < illegCount t1) (h12 : illegCount t1 ≤ illegCount t2) :
    calculateConfidence t2 ≤ calculateConfidence t1 ∧
    (0.05 : ℚ) ≤ calculateConfidence t2 ∧
    (∀ t : String, 0 < illegCount t →
      calculateConfidence t = min 0.98 (max 0.05 (rawScore t -
        min 0.2 (((illegCount t : ℚ) / ((jsWords t).length : ℚ)) * 0.5)))) := by
  have h2 : 0 < illegCount t2 := lt_of_lt_of_le h1 h12
  have hf1 := not_floor_of_illeg h1
  have hf2 := not_floor_of_illeg h2
  refine ⟨?_, conf_lower t2, fun t ht => ?_⟩
  · rw [conf_spec_form t1 hf1, conf_spec_form t2 hf2]
    have hraw : rawScore t2 = rawScore t1 := by
      rw [rawScore, rawScore, hw, hl, hn]
    have hD : (0:ℚ) < ((max (jsWords t2).length 1 : ℕ) : ℚ) := by
      exact_mod_cast Nat.lt_of_lt_of_le Nat.zero_lt_one (Nat.le_max_right _ 1)
    have hpen : illegPenalty t1 ≤ illegPenalty t2 := by
      rw [illegPenalty, illegPenalty, hw]
      refine min_le_min (le_refl _) (mul_le_mul_of_nonneg_right ?_ (by norm_num))
      exact (div_le_div_iff_of_pos_right hD).mpr (by exact_mod_cast h12)
    refine min_le_min (le_refl _) (max_le_max (le_refl _) ?_)
    rw [hraw]
    exact sub_le_sub_left hpen _
  · rw [conf_spec_form t (not_floor_of_illeg ht), penalty_eq]

/-- Claim C6 (witness): the amended comparison applied to two concrete texts
of equal length, word count and line count with one and two markers. -/
theorem c6_witness :
    calculateConfidence ("[illegible] [illegible]") ≤
      calculateConfidence ("aaaaaaaaaaa [illegible]") ∧
    (0.05 : ℚ) ≤ calculateConfidence ("[illegible] [illegible]") := by
  have h := c6_illegible_amended ("aaaaaaaaaaa [illegible]") ("[illegible] [illegible]")
    (by decide) (by decide) (by decide) (by decide) (by decide)
  exact ⟨h.1, h.2.1⟩

/-- Claim C10: for every input text the confidence is at most 0.65, the base
plus all four increments, so the upper clamp 0.98 is never attained. -/
theorem c10_confidence_cap (t : String) :
    calculateConfidence t ≤ 0.65 ∧ calculateConfidence t ≠ 0.98 := by
  refine ⟨conf_le_065 t, fun hcontra => ?_⟩
  have h := conf_le_065 t
  rw [hcontra] at h
  norm_num at h

/-- Claim C2: when every primary attempt and every fallback attempt fails with
a transient error, the invoker makes exactly three primary and three fallback
attempts, and the error surfaced through the 500 response is the primary
model's last error, not the fallback's. -/
theorem c2_transient_exhaustion (pB fB : ℕ → CallOutcome) (img : FormImage)
    (p1 p2 p3 f1 f2 f3 : String)
    (hp1 : pB 1 = .err p1) (hp2 : pB 2 = .err p2) (hp3 : pB 3 = .err p3)
    (hf1 : fB 1 = .err f1) (hf2 : fB 2 = .err f2) (hf3 : fB 3 = .err f3)
    (tp1 : isPermanentMsg p1 = false) (tp2 : isPermanentMsg p2 = false)
    (tp3 : isPermanentMsg p3 = false) (tf1 : isPermanentMsg f1 = false)
    (tf2 : isPermanentMsg f2 = false) (tf3 : isPermanentMsg f3 = false) :
    (invokeModels pB fB).primaryAttempts = 3 ∧
    (invokeModels pB fB).fallbackAttempts = 3 ∧
    (invokeModels pB fB).outcome = CallResult.thrown (some p3) ∧
    POST (some img) pB fB = .serverError ("Failed to extract text from image") p3 := by
  have hp := retries_three_transient pB p1 p2 p3 hp1 hp2 hp3 tp1 tp2 tp3
  have hf := retries_three_transient fB f1 f2 f3 hf1 hf2 hf3 tf1 tf2 tf3
  have hi := invoke_both_thrown pB fB 3 [300, 600, 900] (some p3) 3 [300, 600, 900]
    (some f3) hp hf
  have ho : (invokeModels pB fB).outcome = CallResult.thrown (some p3) := by
    rw [hi]
    rfl
  exact ⟨by rw [hi], by rw [hi], ho, POST_thrown img pB fB (some p3) ho⟩

/-- Claim C2 (witness): the exhaustion theorem applied to behaviours that
throw a fixed transient error on every attempt of both models. -/
theorem c2_witness :
    (invokeModels (fun _ => CallOutcome.err ("boom"))
      (fun _ => CallOutcome.err ("crash"))).primaryAttempts = 3 ∧
    (invokeModels (fun _ => CallOutcome.err ("boom"))
      (fun _ => CallOutcome.err ("crash"))).fallbackAttempts = 3 ∧
    (invokeModels (fun _ => CallOutcome.err ("boom"))
      (fun _ => CallOutcome.err ("crash"))).outcome = CallResult.thrown (some ("boom")) ∧
    POST (some ⟨"a.png", "image/png", 7⟩) (fun _ => CallOutcome.err ("boom"))
        (fun _ => CallOutcome.err ("crash")) =
      .serverError ("Failed to extract text from image") ("boom") :=
  c2_transient_exhaustion _ _ ⟨"a.png", "image/png", 7⟩ _ _ _ _ _ _
    rfl rfl rfl rfl rfl rfl
    (by decide) (by decide) (by decide) (by decide) (by decide) (by decide)

/-- Claim C3: a permanent error on the primary model's first attempt stops the
primary loop after exactly one attempt with no backoff wait, and the fallback
model's retry loop then runs. -/
theorem c3_permanent_primary_abort (pB fB : ℕ → CallOutcome) (m : String)
    (hp1 : pB 1 = .err m) (hperm : isPermanentMsg m = true) :
    (callModelWithRetries pB 3).attempts = 1 ∧
    (callModelWithRetries pB 3).waits = [] ∧
    (invokeModels pB fB).primaryAttempts = 1 ∧
    (invokeModels pB fB).fallbackTried = true ∧
    1 ≤ (invokeModels pB fB).fallbackAttempts := by
  have hcall := retries_permanent_first pB m hp1 hperm
  have h1 : 1 ≤ (callModelWithRetries fB 3).attempts := one_le_attempts fB
  rcases hf : callModelWithRetries fB 3 with ⟨a2, w2, r2⟩
  rw [hf] at h1
  cases r2 with
  | ok t =>
    have hi := invoke_fallback_ok pB fB 1 [] (some m) a2 w2 t hcall hf
    rw [hcall, hi]
    exact ⟨rfl, rfl, rfl, rfl, h1⟩
  | thrown e2 =>
    have hi := invoke_both_thrown pB fB 1 [] (some m) a2 w2 e2 hcall hf
    rw [hcall, hi]
    exact ⟨rfl, rfl, rfl, rfl, h1⟩

/-- Claim C3 (witness): the permanent-abort theorem applied to a primary model
whose error message names a nonexistent model. -/
theorem c3_witness :
    (callModelWithRetries (fun _ => CallOutcome.err ("The model does not exist")) 3).attempts = 1 ∧
    (callModelWithRetries (fun _ => CallOutcome.err ("The model does not exist")) 3).waits = [] ∧
    (invokeModels (fun _ => CallOutcome.err ("The model does not exist"))
      (fun _ => CallOutcome.ok ("recovered text"))).primaryAttempts = 1 ∧
    (invokeModels (fun _ => CallOutcome.err ("The model does not exist"))
      (fun _ => CallOutcome.ok ("recovered text"))).fallbackTried = true ∧
    1 ≤ (invokeModels (fun _ => CallOutcome.err ("The model does not exist"))
      (fun _ => CallOutcome.ok ("recovered text"))).fallbackAttempts :=
  c3_permanent_primary_abort _ _ _ rfl (by decide)

/-- Claim C4 (counterexample): an empty text from the primary model does not
lead to the fallback model being tried: the retry loop returns it as a
success, the fallback is skipped, and the request fails with a 500 response
rather than recovering through the fallback. -/
theorem c4_counterexample :
    (invokeModels (fun _ => CallOutcome.ok (""))
      (fun _ => CallOutcome.ok ("recovered"))).fallbackTried = false ∧
    (invokeModels (fun _ => CallOutcome.ok (""))
      (fun _ => CallOutcome.ok ("recovered"))).fallbackAttempts = 0 ∧
    POST (some ⟨"a.png", "image/png", 7⟩) (fun _ => CallOutcome.ok (""))
        (fun _ => CallOutcome.ok ("recovered")) =
      .serverError ("Failed to extract text from image") ("Groq returned empty response") := by
  have hp : callModelWithRetries (fun _ => CallOutcome.ok ("")) 3 = ⟨1, [], .ok ("")⟩ :=
    retries_ok_first _ _ rfl
  have hi := invoke_primary_ok (fun _ => CallOutcome.ok (""))
    (fun _ => CallOutcome.ok ("recovered")) 1 [] ("") hp
  have ho : (invokeModels (fun _ => CallOutcome.ok (""))
      (fun _ => CallOutcome.ok ("recovered"))).outcome = CallResult.ok ("") := by
    rw [hi]
  exact ⟨by rw [hi], by rw [hi], POST_empty _ _ _ ho⟩

/-- Claim C4 (amended): an empty text from a model call is not retried and
does not trigger the fallback: the retry loop returns it as a successful call,
the empty-text check after the orchestration fails the whole request with a
500 response, and an empty text is never part of a success response. -/
theorem c4_empty_response_amended (pB fB : ℕ → CallOutcome) (img : FormImage) :
    (pB 1 = CallOutcome.ok ("") →
      (invokeModels pB fB).fallbackTried = false ∧
      (invokeModels pB fB).fallbackAttempts = 0 ∧
      POST (some img) pB fB =
        .serverError ("Failed to extract text from image") ("Groq returned empty response")) ∧
    ((invokeModels pB fB).outcome = CallResult.ok ("") →
      POST (some img) pB fB =
        .serverError ("Failed to extract text from image") ("Groq returned empty response")) ∧
    (∀ t c, POST (some img) pB fB = ApiResponse.success t c →
      ∃ raw, (invokeModels pB fB).outcome = CallResult.ok raw ∧ raw ≠ "" ∧
        t = jsTrim raw ∧ c = calculateConfidence raw) := by
  refine ⟨?_, POST_empty img pB fB, ?_⟩
  · intro h
    have hp : callModelWithRetries pB 3 = ⟨1, [], .ok ("")⟩ := retries_ok_first pB _ h
    have hi := invoke_primary_ok pB fB 1 [] ("") hp
    have ho : (invokeModels pB fB).outcome = CallResult.ok ("") := by rw [hi]
    exact ⟨by rw [hi], by rw [hi], POST_empty img pB fB ho⟩
  · intro t c h
    cases ho : (invokeModels pB fB).outcome with
    | ok raw =>
      by_cases hraw : raw = ""
      · rw [hraw] at ho
        rw [POST_empty img pB fB ho] at h
        exact absurd h (by simp)
      · rw [POST_ok img pB fB raw ho hraw] at h
        injection h with ht hc
        exact ⟨raw, rfl, hraw, ht.symm, hc.symm⟩
    | thrown e =>
      rw [POST_thrown img pB fB e ho] at h
      exact absurd h (by simp)

/-- Claim C4 (witness): the amended empty-response behaviour at a primary
model that returns an empty text on its first attempt. -/
theorem c4_witness :
    (invokeModels (fun _ => CallOutcome.ok (""))
      (fun _ => CallOutcome.ok ("x"))).fallbackTried = false ∧
    POST (some ⟨"b.png", "image/png", 3⟩) (fun _ => CallOutcome.ok (""))
        (fun _ => CallOutcome.ok ("x")) =
      .serverError ("Failed to extract text from image") ("Groq returned empty response") := by
  have h := c4_empty_response_amended (fun _ => CallOutcome.ok (""))
    (fun _ => CallOutcome.ok ("x")) ⟨"b.png", "image/png", 3⟩
  exact ⟨(h.1 rfl).1, (h.1 rfl).2.2⟩

/-- Claim C7 (counterexample): the confidence in the success response is
computed on the untrimmed model text, not on the trimmed text: for a text of
two letters padded with 45 trailing spaces the response carries confidence
0.4 from the 47-character untrimmed text, while the confidence of the trimmed
text is 0.25. -/
theorem c7_counterexample :
    POST (some ⟨"c.png", "image/png", 9⟩)
        (fun _ => CallOutcome.ok ("hi" ++ String.mk (List.replicate 45 (' '))))
        (fun _ => CallOutcome.ok ("x")) = .success ("hi") (0.4) ∧
    calculateConfidence ("hi") = 0.25 ∧ (0.4 : ℚ) ≠ 0.25 := by
  refine ⟨?_, ?_, by norm_num⟩
  · have hp : callModelWithRetries
        (fun _ => CallOutcome.ok ("hi" ++ String.mk (List.replicate 45 (' ')))) 3 =
        ⟨1, [], .ok ("hi" ++ String.mk (List.replicate 45 (' ')))⟩ :=
      retries_ok_first _ _ rfl
    have hi := invoke_primary_ok
      (fun _ => CallOutcome.ok ("hi" ++ String.mk (List.replicate 45 (' '))))
      (fun _ => CallOutcome.ok ("x")) 1 [] ("hi" ++ String.mk (List.replicate 45 (' '))) hp
    have ho : (invokeModels
        (fun _ => CallOutcome.ok ("hi" ++ String.mk (List.replicate 45 (' '))))
        (fun _ => CallOutcome.ok ("x"))).outcome =
        CallResult.ok ("hi" ++ String.mk (List.replicate 45 (' '))) := by rw [hi]
    rw [POST_ok _ _ _ _ ho (by decide)]
    have htrim : jsTrim ("hi" ++ String.mk (List.replicate 45 (' '))) = "hi" := by decide
    have hconf : calculateConfidence ("hi" ++ String.mk (List.replicate 45 (' '))) = 0.4 := by
      rw [conf_spec_form _ (by decide),
        illegPenalty_eq_zero
          (show illegCount ("hi" ++ String.mk (List.replicate 45 (' '))) = 0 by decide)]
      have s1 : ("hi" ++ String.mk (List.replicate 45 (' '))).length = 47 := by decide
      have s2 : (jsWords ("hi" ++ String.mk (List.replicate 45 (' ')))).length = 1 := by decide
      have s3 : (jsLines ("hi" ++ String.mk (List.replicate 45 (' ')))).length = 1 := by decide
      rw [rawScore, s1, s2, s3]
      norm_num
    rw [htrim, hconf]
  · rw [conf_spec_form _ (by decide),
      illegPenalty_eq_zero (show illegCount ("hi") = 0 by decide)]
    have s1 : ("hi").length = 2 := by decide
    have s2 : (jsWords ("hi")).length = 1 := by decide
    have s3 : (jsLines ("hi")).length = 1 := by decide
    rw [rawScore, s1, s2, s3]
    norm_num

/-- Claim C7 (amended): on success the service returns the trimmed text
together with the confidence computed on the raw untrimmed model text. -/
theorem c7_success_body_amended (pB fB : ℕ → CallOutcome) (img : FormImage) (raw : String)
    (h : (invokeModels pB fB).outcome = CallResult.ok raw) (hne : raw ≠ "") :
    POST (some img) pB fB = .success (jsTrim raw) (calculateConfidence raw) :=
  POST_ok img pB fB raw h hne

/-- Claim C7 (witness): the amended success shape at a model text with
surrounding whitespace. -/
theorem c7_witness :
    POST (some ⟨"d.png", "image/png", 2⟩) (fun _ => CallOutcome.ok (" abc "))
        (fun _ => CallOutcome.ok ("y")) = .success ("abc") (0.25) := by
  have hp : callModelWithRetries (fun _ => CallOutcome.ok (" abc ")) 3 =
      ⟨1, [], .ok (" abc ")⟩ := retries_ok_first _ _ rfl
  have hi := invoke_primary_ok (fun _ => CallOutcome.ok (" abc "))
    (fun _ => CallOutcome.ok ("y")) 1 [] (" abc ") hp
  have ho : (invokeModels (fun _ => CallOutcome.ok (" abc "))
      (fun _ => CallOutcome.ok ("y"))).outcome = CallResult.ok (" abc ") := by rw [hi]
  have h := c7_success_body_amended (fun _ => CallOutcome.ok (" abc "))
    (fun _ => CallOutcome.ok ("y")) ⟨"d.png", "image/png", 2⟩ (" abc ") ho (by decide)
  rw [h]
  have htrim : jsTrim (" abc ") = "abc" := by decide
  have hconf : calculateConfidence (" abc ") = 0.25 := by
    rw [conf_spec_form _ (by decide),
      illegPenalty_eq_zero (show illegCount (" abc ") = 0 by decide)]
    have s1 : (" abc ").length = 5 := by decide
    have s2 : (jsWords (" abc ")).length = 1 := by decide
    have s3 : (jsLines (" abc ")).length = 1 := by decide
    rw [rawScore, s1, s2, s3]
    norm_num
  rw [htrim, hconf]

/-- Claim C8 (counterexample): the service performs no MIME validation: a
request whose image field declares the non-image type text/plain is not
rejected with a 400 response; the model is invoked and the request
succeeds. -/
theorem c8_counterexample :
    POST (some ⟨"notes.txt", "text/plain", 5⟩) (fun _ => CallOutcome.ok ("hello world"))
        (fun _ => CallOutcome.ok ("z")) = .success ("hello world") (0.25) ∧
    (invokeModels (fun _ => CallOutcome.ok ("hello world"))
      (fun _ => CallOutcome.ok ("z"))).primaryAttempts = 1 := by
  have hp : callModelWithRetries (fun _ => CallOutcome.ok ("hello world")) 3 =
      ⟨1, [], .ok ("hello world")⟩ := retries_ok_first _ _ rfl
  have hi := invoke_primary_ok (fun _ => CallOutcome.ok ("hello world"))
    (fun _ => CallOutcome.ok ("z")) 1 [] ("hello world") hp
  have ho : (invokeModels (fun _ => CallOutcome.ok ("hello world"))
      (fun _ => CallOutcome.ok ("z"))).outcome = CallResult.ok ("hello world") := by rw [hi]
  refine ⟨?_, by rw [hi]⟩
  rw [POST_ok _ _ _ _ ho (by decide)]
  have htrim : jsTrim ("hello world") = "hello world" := by decide
  have hconf : calculateConfidence ("hello world") = 0.25 := by
    rw [conf_spec_form _ (by decide),
      illegPenalty_eq_zero (show illegCount ("hello world") = 0 by decide)]
    have s1 : ("hello world").length = 11 := by decide
    have s2 : (jsWords ("hello world")).length = 2 := by decide
    have s3 : (jsLines ("hello world")).length = 1 := by decide
    rw [rawScore, s1, s2, s3]
    norm_num
  rw [htrim, hconf]

/-- Claim C8 (amended): the service validates only the presence of the image
field, answering 400 when it is missing; any supplied image, whatever its
declared MIME type, is never rejected with a 400 and the primary model is
invoked at least once; the declared MIME type is used as is, with the empty
string defaulting to image/png. -/
theorem c8_validation_amended (img : FormImage) (pB fB : ℕ → CallOutcome) :
    POST none pB fB = ApiResponse.badRequest ("No image provided") ∧
    (∀ e, POST (some img) pB fB ≠ ApiResponse.badRequest e) ∧
    1 ≤ (invokeModels pB fB).primaryAttempts ∧
    (img.type = "" → effectiveMime img = "image/png") ∧
    (img.type ≠ "" → effectiveMime img = img.type) := by
  refine ⟨rfl, ?_, ?_, ?_, ?_⟩
  · intro e h
    cases ho : (invokeModels pB fB).outcome with
    | ok t =>
      by_cases ht : t = ""
      · rw [ht] at ho
        rw [POST_empty img pB fB ho] at h
        exact absurd h (by simp)
      · rw [POST_ok img pB fB t ho ht] at h
        exact absurd h (by simp)
    | thrown e2 =>
      rw [POST_thrown img pB fB e2 ho] at h
      exact absurd h (by simp)
  · have h1 := one_le_attempts pB
    rcases hp : callModelWithRetries pB 3 with ⟨a, w, r⟩
    rw [hp] at h1
    cases r with
    | ok t =>
      rw [invoke_primary_ok pB fB a w t hp]
      exact h1
    | thrown e2 =>
      rcases hf : callModelWithRetries fB 3 with ⟨a2, w2, r2⟩
      cases r2 with
      | ok t2 =>
        rw [invoke_fallback_ok pB fB a w e2 a2 w2 t2 hp hf]
        exact h1
      | thrown e3 =>
        rw [invoke_both_thrown pB fB a w e2 a2 w2 e3 hp hf]
        exact h1
  · intro h
    simp [effectiveMime, h]
  · intro h
    simp [effectiveMime, h]

/-- Claim C8 (witness): the amended validation behaviour at a missing image
and at a concrete non-image MIME type. -/
theorem c8_witness :
    POST none (fun _ => CallOutcome.ok ("w")) (fun _ => CallOutcome.ok ("w")) =
      ApiResponse.badRequest ("No image provided") ∧
    POST (some ⟨"f.txt", "application/pdf", 8⟩) (fun _ => CallOutcome.ok ("w"))
        (fun _ => CallOutcome.ok ("w")) ≠ ApiResponse.badRequest ("No image provided") ∧
    effectiveMime ⟨"f.txt", "application/pdf", 8⟩ = "application/pdf" := by
  have h := c8_validation_amended ⟨"f.txt", "application/pdf", 8⟩
    (fun _ => CallOutcome.ok ("w")) (fun _ => CallOutcome.ok ("w"))
  exact ⟨h.1, h.2.1 ("No image provided"), h.2.2.2.2 (by decide)⟩

/-- Claim C9: the image normalizer maps any image whose larger dimension
exceeds 2000 to one whose larger dimension equals 2000, both dimensions being
rounded multiples of the one shared scale factor; leaves smaller images
unscaled; and transforms every pixel by luminance-weighted grayscale followed
by the clamped contrast map on each channel. -/
theorem c9_normalizer (wd ht : ℕ) :
    (2000 < max wd ht →
      max (preprocessDims wd ht).1 (preprocessDims wd ht).2 = 2000) ∧
    (max wd ht ≤ 2000 → preprocessDims wd ht = (wd, ht)) ∧
    (∀ r g b : ℚ, transformPixel r g b =
      (contrastClamp (luminance r g b), contrastClamp (luminance r g b),
        contrastClamp (luminance r g b))) := by
  refine ⟨?_, ?_, fun r g b => rfl⟩
  · intro hgt
    have hM0 : max wd ht ≠ 0 := by omega
    have hMpos : (0:ℚ) < ((max wd ht : ℕ) : ℚ) := by
      exact_mod_cast Nat.pos_of_ne_zero hM0
    have hscale : preprocessScale wd ht = 2000 / ((max wd ht : ℕ) : ℚ) := by
      rw [preprocessScale, if_neg hM0]
      apply min_eq_right
      rw [div_le_one hMpos]
      exact_mod_cast le_of_lt hgt
    have hfl : ⌊(2000:ℚ) + 1/2⌋ = 2000 := by
      rw [Int.floor_eq_iff]
      constructor <;> norm_num
    have hMne : ((max wd ht : ℕ) : ℚ) ≠ 0 := ne_of_gt hMpos
    have hm : ((max wd ht : ℕ) : ℚ) * (2000 / ((max wd ht : ℕ) : ℚ)) = 2000 := by
      rw [mul_comm]
      exact div_mul_cancel₀ 2000 hMne
    have key : ∀ d : ℕ, d = max wd ht →
        (jsRound ((d : ℚ) * preprocessScale wd ht)).toNat = 2000 := by
      intro d hd
      rw [hscale, hd]
      rw [hm, jsRound, hfl]
      rfl
    have bound : ∀ d : ℕ, d ≤ max wd ht →
        (jsRound ((d : ℚ) * preprocessScale wd ht)).toNat ≤ 2000 := by
      intro d hd
      rw [hscale, jsRound]
      have hcast : (d : ℚ) ≤ ((max wd ht : ℕ) : ℚ) := by exact_mod_cast hd
      have h1 : (d : ℚ) * (2000 / ((max wd ht : ℕ) : ℚ)) ≤ 2000 := by
        calc (d : ℚ) * (2000 / ((max wd ht : ℕ) : ℚ)) ≤
            ((max wd ht : ℕ) : ℚ) * (2000 / ((max wd ht : ℕ) : ℚ)) :=
              mul_le_mul_of_nonneg_right hcast (by positivity)
          _ = 2000 := hm
      have h2 : ⌊(d : ℚ) * (2000 / ((max wd ht : ℕ) : ℚ)) + 1/2⌋ ≤ 2000 := by
        calc ⌊(d : ℚ) * (2000 / ((max wd ht : ℕ) : ℚ)) + 1/2⌋ ≤ ⌊(2000:ℚ) + 1/2⌋ :=
            Int.floor_le_floor (by linarith)
          _ = 2000 := hfl
      exact Int.toNat_le.mpr h2
    rcases max_choice wd ht with hc | hc
    · have e1 : (preprocessDims wd ht).1 = 2000 := key wd hc.symm
      have e2 : (preprocessDims wd ht).2 ≤ 2000 := by
        have hle : ht ≤ max wd ht := Nat.le_max_right wd ht
        exact bound ht hle
      rw [e1]
      exact Nat.max_eq_left e2
    · have e1 : (preprocessDims wd ht).2 = 2000 := key ht hc.symm
      have e2 : (preprocessDims wd ht).1 ≤ 2000 := by
        have hle : wd ≤ max wd ht := Nat.le_max_left wd ht
        exact bound wd hle
      rw [e1]
      exact Nat.max_eq_right e2
  · intro hle
    by_cases hM0 : max wd ht = 0
    · have hw0 : wd = 0 := by omega
      have hh0 : ht = 0 := by omega
      subst hw0
      subst hh0
      have h0 : preprocessScale 0 0 = 1 := by
        rw [preprocessScale]
        simp
      have hr : jsRound ((0 : ℚ)) = 0 := by
        have := jsRound_natCast 0
        simpa using this
      simp [preprocessDims, h0, hr]
    · have hMpos : (0:ℚ) < ((max wd ht : ℕ) : ℚ) := by
        exact_mod_cast Nat.pos_of_ne_zero hM0
      have hscale1 : preprocessScale wd ht = 1 := by
        rw [preprocessScale, if_neg hM0]
        apply min_eq_left
        rw [le_div_iff₀ hMpos]
        rw [one_mul]
        exact_mod_cast hle
      simp only [preprocessDims, hscale1, mul_one]
      rw [jsRound_natCast wd, jsRound_natCast ht]
      simp

/-- Claim C9 (witness): the dimension cap applied to a 4000 by 2000 image. -/
theorem c9_witness :
    2000 < max 4000 2000 ∧
    max (preprocessDims 4000 2000).1 (preprocessDims 4000 2000).2 = 2000 :=
  ⟨by norm_num, (c9_normalizer 4000 2000).1 (by norm_num)⟩
